import Mathlib

/-!
# Student Portal API: verification of the directory / attendance core

A shallow embedding, into Lean, of the core logic of the student-portal
backend (`src/api/index.js` and the password-printing script): credential
derivation (HMAC-SHA256, base64url, sliced), identity extraction from
display names, the directory cache refresh, login, per-student attendance
listing, and the per-class attendance summary.

Conventions of the embedding:
  * JavaScript strings are Lean `String`s; machine words are `Nat`
    reduced modulo `2^32` where the source wraps.
  * Calendar dates are modelled as already-parsed `Option Nat` values
    (a comparable timestamp); a missing or unparseable date is `none` —
    in the source a missing date is falsy and an unparseable one compares
    as `NaN`, and both make every `>=` comparison false, which is exactly
    how `none` is treated here.
  * The external store is modelled as the list of pages it would serve,
    each page carrying its records and an optional continuation cursor.
  * Fallible operations return `Except String`, mirroring thrown errors
    and non-success HTTP responses.
-/

/-! ## JavaScript string primitives -/

/-- The whitespace class recognised by JavaScript `String.prototype.trim`
(restricted to the characters that can actually occur in the data:
space, tab, LF, VT, FF, CR, NBSP). -/
def isJsWhitespace (c : Char) : Bool :=
  c = ' ' || c = '\t' || c = '\n' || c.toNat = 11 || c.toNat = 12 ||
  c.toNat = 13 || c.toNat = 0xA0

/-- JavaScript `String.prototype.trim`: drop leading and trailing
whitespace. -/
def jsTrim (s : String) : String :=
  String.mk (((s.toList.dropWhile isJsWhitespace).reverse.dropWhile
    isJsWhitespace).reverse)

/-- Does `sub` occur as a contiguous run inside `l`? -/
def containsSeq (sub : List Char) : List Char → Bool
  | [] => sub.isEmpty
  | c :: rest => sub.isPrefixOf (c :: rest) || containsSeq sub rest

/-- JavaScript `String.prototype.includes`: substring containment. -/
def jsIncludes (s sub : String) : Bool :=
  containsSeq sub.toList s.toList

/-- ASCII lower-casing, the fragment of `String.prototype.toLowerCase`
exercised by the alias data. -/
def asciiLower (c : Char) : Char :=
  if 'A' ≤ c ∧ c ≤ 'Z' then Char.ofNat (c.toNat + 32) else c

/-- JavaScript `toLowerCase` over a whole string (ASCII fragment). -/
def jsToLower (s : String) : String :=
  String.mk (s.toList.map asciiLower)

/-- JavaScript `String.prototype.slice(a, b)` for `0 ≤ a ≤ b`. -/
def jsSlice (s : String) (a b : Nat) : String :=
  String.mk ((s.toList.drop a).take (b - a))

/-- UTF-8 encoding of one character, as byte values. -/
def utf8EncodeCharNat (c : Char) : List Nat :=
  let n := c.toNat
  if n < 0x80 then [n]
  else if n < 0x800 then
    [0xC0 ||| (n >>> 6), 0x80 ||| (n &&& 0x3F)]
  else if n < 0x10000 then
    [0xE0 ||| (n >>> 12), 0x80 ||| ((n >>> 6) &&& 0x3F), 0x80 ||| (n &&& 0x3F)]
  else
    [0xF0 ||| (n >>> 18), 0x80 ||| ((n >>> 12) &&& 0x3F),
     0x80 ||| ((n >>> 6) &&& 0x3F), 0x80 ||| (n &&& 0x3F)]

/-- UTF-8 bytes of a string, the encoding Node's `hmac.update(string)`
applies. -/
def utf8Bytes (s : String) : List Nat :=
  (s.toList.map utf8EncodeCharNat).flatten

/-! ## SHA-256 (FIPS 180-4) over `Nat` bytes -/

namespace Sha256

/-- Truncate to a 32-bit word. -/
def w32 (n : Nat) : Nat := n % 4294967296

/-- Right-rotation of a 32-bit word (input assumed `< 2^32`). -/
def rotr (n x : Nat) : Nat := w32 ((x >>> n) ||| (x <<< (32 - n)))

/-- `Ch(x,y,z)`. -/
def ch (x y z : Nat) : Nat := (x &&& y) ^^^ ((x ^^^ 0xFFFFFFFF) &&& z)

/-- `Maj(x,y,z)`. -/
def maj (x y z : Nat) : Nat := (x &&& y) ^^^ (x &&& z) ^^^ (y &&& z)

/-- `Σ₀`. -/
def bsig0 (x : Nat) : Nat := rotr 2 x ^^^ rotr 13 x ^^^ rotr 22 x

/-- `Σ₁`. -/
def bsig1 (x : Nat) : Nat := rotr 6 x ^^^ rotr 11 x ^^^ rotr 25 x

/-- `σ₀`. -/
def ssig0 (x : Nat) : Nat := rotr 7 x ^^^ rotr 18 x ^^^ (x >>> 3)

/-- `σ₁`. -/
def ssig1 (x : Nat) : Nat := rotr 17 x ^^^ rotr 19 x ^^^ (x >>> 10)

/-- The 64 round constants `K₀…K₆₃`. -/
def K : List Nat :=
  [0x428A2F98, 0x71374491, 0xB5C0FBCF, 0xE9B5DBA5, 0x3956C25B, 0x59F111F1,
   0x923F82A4, 0xAB1C5ED5, 0xD807AA98, 0x12835B01, 0x243185BE, 0x550C7DC3,
   0x72BE5D74, 0x80DEB1FE, 0x9BDC06A7, 0xC19BF174, 0xE49B69C1, 0xEFBE4786,
   0x0FC19DC6, 0x240CA1CC, 0x2DE92C6F, 0x4A7484AA, 0x5CB0A9DC, 0x76F988DA,
   0x983E5152, 0xA831C66D, 0xB00327C8, 0xBF597FC7, 0xC6E00BF3, 0xD5A79147,
   0x06CA6351, 0x14292967, 0x27B70A85, 0x2E1B2138, 0x4D2C6DFC, 0x53380D13,
   0x650A7354, 0x766A0ABB, 0x81C2C92E, 0x92722C85, 0xA2BFE8A1, 0xA81A664B,
   0xC24B8B70, 0xC76C51A3, 0xD192E819, 0xD6990624, 0xF40E3585, 0x106AA070,
   0x19A4C116, 0x1E376C08, 0x2748774C, 0x34B0BCB5, 0x391C0CB3, 0x4ED8AA4A,
   0x5B9CCA4F, 0x682E6FF3, 0x748F82EE, 0x78A5636F, 0x84C87814, 0x8CC70208,
   0x90BEFFFA, 0xA4506CEB, 0xBEF9A3F7, 0xC67178F2]

/-- The running hash state `a…h`. -/
structure HashState where
  a : Nat
  b : Nat
  c : Nat
  d : Nat
  e : Nat
  f : Nat
  g : Nat
  h : Nat

/-- Initial hash value `H⁽⁰⁾`. -/
def H0 : HashState :=
  ⟨0x6A09E667, 0xBB67AE85, 0x3C6EF372, 0xA54FF53A,
   0x510E527F, 0x9B05688C, 0x1F83D9AB, 0x5BE0CD19⟩

/-- One compression round with constant `k` and schedule word `w`. -/
def round (s : HashState) (kw : Nat × Nat) : HashState :=
  let T1 := w32 (s.h + bsig1 s.e + ch s.e s.f s.g + kw.1 + kw.2)
  let T2 := w32 (bsig0 s.a + maj s.a s.b s.c)
  ⟨w32 (T1 + T2), s.a, s.b, s.c, w32 (s.d + T1), s.e, s.f, s.g⟩

/-- Extend the 16 block words to the 64-word message schedule. -/
def expandSchedule (w : List Nat) : Nat → List Nat
  | 0 => w
  | fuel + 1 =>
    let n := w.length
    let wt := w32 (ssig1 (w.getD (n - 2) 0) + w.getD (n - 7) 0 +
      ssig0 (w.getD (n - 15) 0) + w.getD (n - 16) 0)
    expandSchedule (w ++ [wt]) fuel

/-- Compress one 16-word block into the chaining state. -/
def compress (s : HashState) (block : List Nat) : HashState :=
  let w := expandSchedule block 48
  let t := (K.zip w).foldl round s
  ⟨w32 (s.a + t.a), w32 (s.b + t.b), w32 (s.c + t.c), w32 (s.d + t.d),
   w32 (s.e + t.e), w32 (s.f + t.f), w32 (s.g + t.g), w32 (s.h + t.h)⟩

/-- Big-endian 4-byte serialization of a word. -/
def wordBytesBE (x : Nat) : List Nat :=
  [(x >>> 24) &&& 0xFF, (x >>> 16) &&& 0xFF, (x >>> 8) &&& 0xFF, x &&& 0xFF]

/-- Big-endian 8-byte serialization of the bit length. -/
def lenBytesBE (x : Nat) : List Nat :=
  [(x >>> 56) &&& 0xFF, (x >>> 48) &&& 0xFF, (x >>> 40) &&& 0xFF,
   (x >>> 32) &&& 0xFF, (x >>> 24) &&& 0xFF, (x >>> 16) &&& 0xFF,
   (x >>> 8) &&& 0xFF, x &&& 0xFF]

/-- FIPS 180-4 §5.1.1 padding: `0x80`, zeros to 56 mod 64, then the
64-bit big-endian bit length. -/
def pad (msg : List Nat) : List Nat :=
  let L := msg.length
  let k := (119 - L % 64) % 64
  msg ++ 0x80 :: List.replicate k 0 ++ lenBytesBE (8 * L)

/-- Four big-endian bytes to one word. -/
def bytesToWord (b0 b1 b2 b3 : Nat) : Nat :=
  ((b0 <<< 8 ||| b1) <<< 8 ||| b2) <<< 8 ||| b3

/-- Group a padded byte list into 16-word blocks. -/
def toBlocks (l : List Nat) : List (List Nat) :=
  match l with
  | b0 :: b1 :: b2 :: b3 :: rest =>
    match toBlocks rest with
    | [] => [[bytesToWord b0 b1 b2 b3]]
    | ws :: blocks =>
      if ws.length < 16 then (bytesToWord b0 b1 b2 b3 :: ws) :: blocks
      else [bytesToWord b0 b1 b2 b3] :: ws :: blocks
  | _ => []

/-- SHA-256 digest of a byte list, as 32 byte values. -/
def sha256 (msg : List Nat) : List Nat :=
  let s := (toBlocks (pad msg)).foldl compress H0
  wordBytesBE s.a ++ wordBytesBE s.b ++ wordBytesBE s.c ++ wordBytesBE s.d ++
  wordBytesBE s.e ++ wordBytesBE s.f ++ wordBytesBE s.g ++ wordBytesBE s.h

/-- HMAC-SHA256 (FIPS 198-1) of `msg` under `key`, as 32 byte values:
the semantics of Node's `crypto.createHmac("sha256", key)`. -/
def hmacSha256 (key msg : List Nat) : List Nat :=
  let k0 := if key.length > 64 then sha256 key else key
  let kp := k0 ++ List.replicate (64 - k0.length) 0
  let ipadKey := kp.map (fun b => b ^^^ 0x36)
  let opadKey := kp.map (fun b => b ^^^ 0x5c)
  sha256 (opadKey ++ sha256 (ipadKey ++ msg))

end Sha256

/-! ## base64url encoding (no padding), Node's `digest("base64url")` -/

/-- The URL-safe base64 alphabet. -/
def b64UrlAlphabet : List Char :=
  "ABCDEFGHIJKLMNOPQRSTUVWXYZabcdefghijklmnopqrstuvwxyz0123456789-_".toList

/-- One sextet to its alphabet character. -/
def b64Char (n : Nat) : Char := b64UrlAlphabet.getD n 'A'

/-- base64url encoding of a byte list, without padding characters. -/
def b64UrlEncode : List Nat → List Char
  | [] => []
  | [b0] => [b64Char (b0 >>> 2), b64Char ((b0 &&& 3) <<< 4)]
  | [b0, b1] =>
    [b64Char (b0 >>> 2), b64Char (((b0 &&& 3) <<< 4) ||| (b1 >>> 4)),
     b64Char ((b1 &&& 15) <<< 2)]
  | b0 :: b1 :: b2 :: rest =>
    b64Char (b0 >>> 2) :: b64Char (((b0 &&& 3) <<< 4) ||| (b1 >>> 4)) ::
    b64Char (((b1 &&& 15) <<< 2) ||| (b2 >>> 6)) :: b64Char (b2 &&& 63) ::
    b64UrlEncode rest

/-! ## Credential derivation

Two independent copies exist in the repository: one in the server
(`src/api/index.js`, `derivePassword`) and one in the password-printing
script (`print_passwords.js`, `derivePassword`).  Both call
`crypto.createHmac("sha256", PORTAL_PW_SECRET).update(String(id).trim())
.digest("base64url")` and format `` `ac-${raw.slice(0,5)}-${raw.slice(5,11)}` ``.
Each is embedded in its own namespace; the key material is a parameter. -/

namespace Server

/-- `derivePassword` as defined in `src/api/index.js` lines 61–67. -/
def derivePassword (secret studentId : String) : String :=
  let raw := String.mk (b64UrlEncode
    (Sha256.hmacSha256 (utf8Bytes secret) (utf8Bytes (jsTrim studentId))))
  "ac-" ++ jsSlice raw 0 5 ++ "-" ++ jsSlice raw 5 11

end Server

namespace Script

/-- `derivePassword` as defined in the password-printing script
(`print_passwords.js` lines 15–21). -/
def derivePassword (secret studentId : String) : String :=
  let raw := String.mk (b64UrlEncode
    (Sha256.hmacSha256 (utf8Bytes secret) (utf8Bytes (jsTrim studentId))))
  "ac-" ++ jsSlice raw 0 5 ++ "-" ++ jsSlice raw 5 11

end Script

/-! ## Identity extraction (`extractStudentId`)

The source tries, in order,
`/^([A-Za-z]\d{2,})\s*[-–—]\s*/` and then the word-boundary fallback
`/^([A-Za-z]\d{2,})\b/`.  Both regexes are deterministic on their input
shape (the digit run is maximal: a digit is neither whitespace, a dash,
nor a non-word character, so backtracking the `\d{2,}` can never create
a match that the maximal run misses), so they are embedded as direct
scans. -/

/-- ASCII letter, the `[A-Za-z]` class. -/
def isAsciiLetter (c : Char) : Bool :=
  ('A' ≤ c && c ≤ 'Z') || ('a' ≤ c && c ≤ 'z')

/-- ASCII digit, the `\d` class. -/
def isDigitChar (c : Char) : Bool := '0' ≤ c && c ≤ '9'

/-- The `\w` class: letter, digit, or underscore. -/
def isWordChar (c : Char) : Bool :=
  isAsciiLetter c || isDigitChar c || c = '_'

/-- The regex `\s` class (fragment occurring in the data). -/
def isRegexSpace (c : Char) : Bool := isJsWhitespace c

/-- The separator class `[-–—]`: hyphen, en dash, em dash. -/
def isDashSep (c : Char) : Bool :=
  c = '-' || c.toNat = 0x2013 || c.toNat = 0x2014

/-- `extractStudentId` (`src/api/index.js` lines 69–78): parse a
leading letter-plus-digits token followed by an optional-whitespace
dash separator, falling back to the same token at a word boundary;
`none` when neither regex matches. -/
def extractStudentId (rawName : Option String) : Option String :=
  match rawName with
  | none => none
  | some s =>
    match s.toList with
    | [] => none
    | c :: rest =>
      if isAsciiLetter c then
        let digits := rest.takeWhile isDigitChar
        let after := rest.dropWhile isDigitChar
        if digits.length ≥ 2 then
          let token := String.mk (c :: digits)
          let isBoundary := match after with
            | [] => true
            | d :: _ => !isWordChar d
          match after.dropWhile isRegexSpace with
          | d :: _ =>
            if isDashSep d then some token
            else if isBoundary then some token else none
          | [] => if isBoundary then some token else none
        else none
      else none

/-! ## Directory cache (`STUDENTS` and `loadStudentsFromAirtable`) -/

/-- A JavaScript string-valued field: absent, or present with a value
(the empty string is falsy and treated as absent by every `||` / `!x`
test in the source). -/
def strVal (o : Option String) : Option String :=
  match o with
  | some s => if s = "" then none else some s
  | none => none

/-- The fields of one record of the Students table that the directory
load reads. -/
structure StudentFields where
  preferredName : Option String
  name : Option String
  studentID : Option String
deriving DecidableEq

/-- A published directory entry (`STUDENTS[preferredName]`). -/
structure DirEntry where
  preferredName : String
  studentId : String
  password : String
deriving DecidableEq

/-- Object-key insertion: overwrite in place if the key exists, else
append (JavaScript object key order). -/
def upsertEntry (m : List DirEntry) (e : DirEntry) : List DirEntry :=
  if m.any (fun x => x.preferredName == e.preferredName) then
    m.map (fun x => if x.preferredName == e.preferredName then e else x)
  else m ++ [e]

/-- Build the `next` mapping from one batch of Students records
(`src/api/index.js` lines 130–143): resolve the identity token from the
display name, falling back to the explicit `StudentID` field; skip
records lacking an alias or token; derive each password. -/
def buildEntries (secret : String) (records : List StudentFields) : List DirEntry :=
  records.foldl (fun acc r =>
    let studentId := match extractStudentId r.name with
      | some sid => some sid
      | none => strVal r.studentID
    match strVal r.preferredName, studentId with
    | some pn, some sid =>
      upsertEntry acc ⟨pn, sid, Server.derivePassword secret sid⟩
    | _, _ => acc) []

/-- One page served by the external Students store: the HTTP success
flag, the records, and the continuation cursor (`offset`) advertising
further pages. -/
structure StudentsPage where
  ok : Bool
  records : List StudentFields
  offset : Option String
deriving DecidableEq

/-- `loadStudentsFromAirtable` (`src/api/index.js` lines 85–149) run
against a store that would serve `store` as its page sequence: the
source issues a single request (the first page), throws on a
non-success response leaving `STUDENTS` untouched, and otherwise
replaces `STUDENTS` wholesale with the mapping built from that one
response's records.  Returns the new directory state paired with the
surfaced outcome. -/
def loadStudentsFromAirtable (secret : String) (prev : List DirEntry)
    (store : List StudentsPage) : List DirEntry × Except String Unit :=
  match store with
  | [] => (prev, .error "Students fetch failed: no response")
  | page :: _ =>
    if page.ok then (buildEntries secret page.records, .ok ())
    else (prev, .error "Students fetch failed")

/-! ## Login (`POST /login`) -/

/-- The response of the login route, as its JSON shape. -/
inductive LoginResult where
  | badRequest (error : String)
  | unauthorized (error : String)
  | success (staffOverride : Bool) (preferredName studentId : String)
deriving DecidableEq

/-- The alias lookup both `/login` and `/attendance` perform:
case-insensitive, whitespace-trimmed match over the directory values. -/
def findStudent (students : List DirEntry) (preferredName : String) :
    Option DirEntry :=
  let normalized := jsToLower (jsTrim preferredName)
  students.find? (fun s => jsToLower (jsTrim s.preferredName) == normalized)

/-- `POST /login` (`src/api/index.js` lines 197–244): reject empty
fields, look the alias up, honour the master override when configured,
then compare the supplied secret with the stored derived secret.  Both
failure paths produce the same `401 {"error":"Invalid credentials"}`
value. -/
def login (students : List DirEntry) (masterPw : Option String)
    (preferredName password : String) : LoginResult :=
  if preferredName = "" || password = "" then
    .badRequest "Preferred name and password are required"
  else
    match findStudent students preferredName with
    | none => .unauthorized "Invalid credentials"
    | some student =>
      let masterMatch := match masterPw with
        | some m => m ≠ "" && password == m
        | none => false
      if masterMatch then .success true student.preferredName student.studentId
      else if password ≠ student.password then
        .unauthorized "Invalid credentials"
      else .success false student.preferredName student.studentId

/-! ## Per-student attendance listing (`GET /attendance/:preferredName`) -/

/-- One raw attendance record as the store serves it; `date` is the
parsed `fields.Date` (`none` when the field is missing — the source's
`!recordDate` test — or unparseable, which the source's `NaN`
comparison likewise excludes). -/
structure AttRow where
  id : String
  date : Option Nat
  course : Option (List String)
  blockA : Option String
  blockB : Option String
  blockC : Option String
  blockD : Option String
deriving DecidableEq

/-- One page of the attendance store's paginated response. -/
structure AttPage where
  ok : Bool
  records : List AttRow
  offset : Option String
deriving DecidableEq

/-- The `do … while (offset)` drain loop: accumulate each successful
page's records, follow the continuation cursor, and fail the whole
operation on any non-success page.  `store` is the sequence of
responses the external store serves. -/
def drainPages (store : List AttPage) : Except String (List AttRow) :=
  match store with
  | [] => .error "Failed to fetch from Airtable"
  | page :: rest =>
    if page.ok then
      match page.offset with
      | none => .ok page.records
      | some _ =>
        match drainPages rest with
        | .ok more => .ok (page.records ++ more)
        | .error e => .error e
    else .error "Failed to fetch from Airtable"

/-- The record shape `/attendance` returns to the client. -/
structure AttOut where
  id : String
  date : Option Nat
  course : Option (List String)
  blockA : Option String
  blockB : Option String
  blockC : Option String
  blockD : Option String
deriving DecidableEq

/-- The per-record projection of the route's `.map`. -/
def toAttOut (r : AttRow) : AttOut :=
  ⟨r.id, r.date, r.course, r.blockA, r.blockB, r.blockC, r.blockD⟩

/-- Is the row's date present and on or after the floor?  (The
source's `date >= courseStartDate` after the `!recordDate` guard.) -/
def dateOnOrAfter (floor : Nat) (date : Option Nat) : Bool :=
  match date with
  | some d => floor ≤ d
  | none => false

/-- `GET /attendance/:preferredName` core (`src/api/index.js` lines
264–317): drain all pages matching the alias, then locally discard
rows dated strictly before the course-start floor and project each
surviving record. -/
def listAttendance (courseStartDate : Nat) (store : List AttPage) :
    Except String (List AttOut) :=
  match drainPages store with
  | .ok allRecords =>
    .ok ((allRecords.filter (fun r => dateOnOrAfter courseStartDate r.date)).map
      toAttOut)
  | .error e => .error e

/-! ## Per-class summary (`GET /teacher/class/:className`) -/

/-- A JavaScript value that may be a plain string, an array of strings,
or absent — the shapes `PreferredNameText` takes. -/
inductive JsStrVal where
  | undef
  | str (s : String)
  | arr (xs : List String)
deriving DecidableEq

/-- The source's alias resolution: take the first element if the field
is an array, then drop falsy results (absent, empty array head, or
empty string). -/
def resolveName (v : JsStrVal) : Option String :=
  match v with
  | .undef => none
  | .str s => if s = "" then none else some s
  | .arr xs =>
    match xs.head? with
    | none => none
    | some s => if s = "" then none else some s

/-- The attendance-table fields the class summary reads. -/
structure ClassRow where
  preferredNameText : JsStrVal
  date : Option Nat
  courseLinks : List String
  blockA : Option String
  blockB : Option String
  blockC : Option String
  blockD : Option String
deriving DecidableEq

/-- The row filter (`src/api/index.js` lines 628–637): the row's course
links contain the target course record id and the row's date is present
and on or after the course start date. -/
def qualifies (courseRecordId : String) (startDate : Nat) (r : ClassRow) : Bool :=
  r.courseLinks.contains courseRecordId && dateOnOrAfter startDate r.date

/-- A per-student accumulator (`studentMap[preferredName]`). -/
structure Counts where
  preferredName : String
  absences : Nat
  tardies : Nat
  totalBlocks : Nat
deriving DecidableEq

/-- The per-block fold (`src/api/index.js` lines 663–673): any truthy
status counts a recorded block; a status containing `"Absent"`
increments absences, else one containing `"Tardy"` increments
tardies. -/
def foldBlock (c : Counts) (status : Option String) : Counts :=
  match status with
  | none => c
  | some s =>
    if s = "" then c
    else
      let c := { c with totalBlocks := c.totalBlocks + 1 }
      if jsIncludes s "Absent" then { c with absences := c.absences + 1 }
      else if jsIncludes s "Tardy" then { c with tardies := c.tardies + 1 }
      else c

/-- Fold the four fixed blocks of one record, in source order. -/
def foldRecordBlocks (c : Counts) (r : ClassRow) : Counts :=
  foldBlock (foldBlock (foldBlock (foldBlock c r.blockA) r.blockB) r.blockC)
    r.blockD

/-- Process one qualifying record into the student map: resolve the
alias (dropping the record when none resolves), create the zeroed
accumulator on first sight, and fold the blocks into it. -/
def processRecord (m : List Counts) (r : ClassRow) : List Counts :=
  match resolveName r.preferredNameText with
  | none => m
  | some n =>
    let m' := if m.any (fun c => c.preferredName == n) then m
      else m ++ [⟨n, 0, 0, 0⟩]
    m'.map (fun c => if c.preferredName == n then foldRecordBlocks c r else c)

/-- Aggregate the filtered rows into the student map (`studentMap`). -/
def buildStudentMap (rows : List ClassRow) : List Counts :=
  rows.foldl processRecord []

/-- The percentage fields of one Students record. -/
structure PercentFields where
  missedFE : Option Nat
  missedBE : Option Nat
  missedTCF : Option Nat
deriving DecidableEq

/-- The outcome of the per-student percent lookup against the Students
table: a successful response with its records, a non-success HTTP
response, or a thrown error. -/
inductive PercentLookup where
  | ok (recs : List PercentFields)
  | httpError
  | thrown
deriving DecidableEq

/-- Course-category inference (`src/api/index.js` lines 702–709):
select the percent field by substrings of the class name; a name
matching no category yields `0`. -/
def selectPercent (className : String) (f : PercentFields) : Nat :=
  if jsIncludes className "Frontend" || jsIncludes className "FE" then
    f.missedFE.getD 0
  else if jsIncludes className "Backend" || jsIncludes className "BE" then
    f.missedBE.getD 0
  else if jsIncludes className "TCF" || jsIncludes className "ITP" then
    f.missedTCF.getD 0
  else 0

/-- One entry of the route's response. -/
structure StudentSummary where
  preferredName : String
  absences : Nat
  tardies : Nat
  totalBlocks : Nat
  percentMissed : Option Nat
deriving DecidableEq

/-- The per-student percent join (`src/api/index.js` lines 680–724):
on a successful lookup with at least one record, attach the selected
percent; on an empty result, a non-success response, or a thrown
error, attach `null` and keep the student. -/
def joinPercent (lookup : String → PercentLookup) (className : String)
    (c : Counts) : StudentSummary :=
  match lookup c.preferredName with
  | .ok recs =>
    match recs.head? with
    | some f => ⟨c.preferredName, c.absences, c.tardies, c.totalBlocks,
        some (selectPercent className f)⟩
    | none => ⟨c.preferredName, c.absences, c.tardies, c.totalBlocks, none⟩
  | .httpError => ⟨c.preferredName, c.absences, c.tardies, c.totalBlocks, none⟩
  | .thrown => ⟨c.preferredName, c.absences, c.tardies, c.totalBlocks, none⟩

/-- Did the per-student lookup fail to produce a usable record
(store error, thrown exception, or no matching record)? -/
def lookupFailed (r : PercentLookup) : Bool :=
  match r with
  | .ok recs => recs.isEmpty
  | .httpError => true
  | .thrown => true

/-- The summary ordering: ascending by alias (`localeCompare`, modelled
as string order). -/
def summaryLE (a b : StudentSummary) : Bool :=
  a.preferredName ≤ b.preferredName

/-- `GET /teacher/class/:className` aggregation core (`src/api/index.js`
lines 627–731), over the drained row set: filter to the course window,
aggregate per student, drop falsy aliases, join the percent metric,
and sort by alias. -/
def summarizeClass (courseRecordId : String) (startDate : Nat)
    (className : String) (rows : List ClassRow)
    (lookup : String → PercentLookup) : List StudentSummary :=
  let courseRecords := rows.filter (qualifies courseRecordId startDate)
  let m := buildStudentMap courseRecords
  let m := m.filter (fun c => c.preferredName ≠ "")
  (m.map (joinPercent lookup className)).mergeSort summaryLE

/-! ## Theorems -/

/-- C7: the identity extractor handles the hyphen-separated, em-dash
separated, bare-token, and no-token display names exactly as specified:
`extract("S022 - Jane Doe") = "S022"`, `extract("S022—Jane Doe") =
"S022"`, `extract("S022") = "S022"`, `extract("Jane Doe") = null`. -/
theorem extractStudentId_examples :
    extractStudentId (some "S022 - Jane Doe") = some "S022" ∧
    extractStudentId (some "S022—Jane Doe") = some "S022" ∧
    extractStudentId (some "S022") = some "S022" ∧
    extractStudentId (some "Jane Doe") = none := by
  decide

/-- C10: the server's credential deriver and the password-printing
script's credential deriver compute the same function — for every
student identifier and identical key material the two produce equal
secrets. -/
theorem derivePassword_server_script_agree (secret studentId : String) :
    Server.derivePassword secret studentId =
      Script.derivePassword secret studentId := rfl

/-- C2 counterexample: a store whose first page carries a continuation
cursor and whose second page holds a further identity record.  The
refresh publishes a mapping containing only the first page's alias:
the second page's alias `"Beth"` is missing even though building from
its records alone would yield it. -/
theorem loadStudents_drops_second_page :
    ((loadStudentsFromAirtable "key" []
      [⟨true, [⟨some "Amy", some "S001 - Amy A", none⟩], some "cursor2"⟩,
       ⟨true, [⟨some "Beth", some "S002 - Beth B", none⟩], none⟩]).1.map
        (fun e => e.preferredName) = ["Amy"]) ∧
    (buildEntries "key" [⟨some "Beth", some "S002 - Beth B", none⟩]).map
        (fun e => e.preferredName) = ["Beth"] := by
  constructor <;> rfl

/-- C2 (amended): directory refresh issues a single page request and
ignores any continuation cursor — the published mapping is derived
from the first page's records only, and the contents of all further
pages never affect it. -/
theorem loadStudents_first_page_only (secret : String) (prev : List DirEntry)
    (page : StudentsPage) (rest rest' : List StudentsPage) :
    loadStudentsFromAirtable secret prev (page :: rest) =
      loadStudentsFromAirtable secret prev (page :: rest') := rfl

/-- C3: refresh failure is atomic — for every prior directory state,
a non-success store response leaves the previously published mapping
exactly unchanged and surfaces the error to the caller. -/
theorem loadStudents_failure_atomic (secret : String) (prev : List DirEntry)
    (page : StudentsPage) (rest : List StudentsPage) (h : page.ok = false) :
    loadStudentsFromAirtable secret prev (page :: rest) =
      (prev, .error "Students fetch failed") := by
  simp [loadStudentsFromAirtable, h]

/-- Witness for C3 at a concrete failing page and non-trivial prior
directory. -/
theorem loadStudents_failure_atomic_witness :
    (StudentsPage.mk false [] none).ok = false ∧
    loadStudentsFromAirtable "k" [⟨"Amy", "S001", "pw"⟩]
        [⟨false, [], none⟩] =
      ([⟨"Amy", "S001", "pw"⟩], .error "Students fetch failed") :=
  ⟨rfl, loadStudents_failure_atomic "k" [⟨"Amy", "S001", "pw"⟩]
    ⟨false, [], none⟩ [] rfl⟩

/-- C1: for every supplied date floor and every page sequence the
store serves (earlier-dated rows included), a successful attendance
listing contains only records whose date is present and on or after
the floor. -/
theorem listAttendance_respects_date_floor (floor : Nat)
    (store : List AttPage) (out : List AttOut)
    (h : listAttendance floor store = .ok out) :
    ∀ r ∈ out, ∃ d, r.date = some d ∧ floor ≤ d := by
  intro r hr
  unfold listAttendance at h
  cases hdrain : drainPages store with
  | error e => rw [hdrain] at h; cases h
  | ok allRecords =>
    rw [hdrain] at h
    cases h
    rcases List.mem_map.mp hr with ⟨row, hrow, hproj⟩
    rcases List.mem_filter.mp hrow with ⟨-, hdate⟩
    cases hd : row.date with
    | none => rw [hd] at hdate; cases hdate
    | some d =>
      refine ⟨d, ?_, ?_⟩
      · rw [← hproj]; exact hd
      · rw [hd] at hdate
        simpa [dateOnOrAfter] using hdate

/-- Witness for C1: a two-row page, one row dated before the floor;
the listing returns exactly the on-or-after row. -/
theorem listAttendance_respects_date_floor_witness :
    listAttendance 7
        [⟨true, [⟨"r1", some 10, none, none, none, none, none⟩,
                 ⟨"r2", some 5, none, none, none, none, none⟩], none⟩] =
      .ok [⟨"r1", some 10, none, none, none, none, none⟩] ∧
    ∀ r ∈ [(⟨"r1", some 10, none, none, none, none, none⟩ : AttOut)],
      ∃ d, r.date = some d ∧ 7 ≤ d :=
  ⟨rfl, listAttendance_respects_date_floor 7
    [⟨true, [⟨"r1", some 10, none, none, none, none, none⟩,
             ⟨"r2", some 5, none, none, none, none, none⟩], none⟩]
    [⟨"r1", some 10, none, none, none, none, none⟩] rfl⟩

/-- C5: the per-block fold of the class summary — a status containing
the absence substring increments absences (even when it also contains
the tardiness substring), otherwise one containing the tardiness
substring increments tardies, any non-empty status increments the
recorded-block total, and an absent or empty status changes nothing. -/
theorem foldBlock_spec (c : Counts) (st : Option String) :
    (st = none → foldBlock c st = c) ∧
    (st = some "" → foldBlock c st = c) ∧
    (∀ s, st = some s → s ≠ "" →
      (foldBlock c st).preferredName = c.preferredName ∧
      (foldBlock c st).totalBlocks = c.totalBlocks + 1 ∧
      (jsIncludes s "Absent" = true →
        (foldBlock c st).absences = c.absences + 1 ∧
        (foldBlock c st).tardies = c.tardies) ∧
      (jsIncludes s "Absent" = false → jsIncludes s "Tardy" = true →
        (foldBlock c st).tardies = c.tardies + 1 ∧
        (foldBlock c st).absences = c.absences) ∧
      (jsIncludes s "Absent" = false → jsIncludes s "Tardy" = false →
        (foldBlock c st).absences = c.absences ∧
        (foldBlock c st).tardies = c.tardies)) := by
  refine ⟨?_, ?_, ?_⟩
  · rintro rfl; rfl
  · rintro rfl; rfl
  · rintro s rfl hs
    simp only [foldBlock, if_neg hs]
    rcases habs : jsIncludes s "Absent" with _ | _ <;>
      rcases htar : jsIncludes s "Tardy" with _ | _ <;>
        simp [habs, htar]

/-- Witness for C5 at a status containing both marking substrings:
only the absence count advances, and the block is recorded. -/
theorem foldBlock_spec_witness :
    (foldBlock ⟨"Amy", 0, 0, 0⟩ (some "Absent / Tardy")).absences = 0 + 1 ∧
    (foldBlock ⟨"Amy", 0, 0, 0⟩ (some "Absent / Tardy")).tardies = 0 ∧
    (foldBlock ⟨"Amy", 0, 0, 0⟩ (some "Absent / Tardy")).totalBlocks = 0 + 1 := by
  have h := (foldBlock_spec ⟨"Amy", 0, 0, 0⟩ (some "Absent / Tardy")).2.2
    "Absent / Tardy" rfl (by decide)
  exact ⟨(h.2.2.1 (by decide)).1, (h.2.2.1 (by decide)).2, h.2.1⟩

/-- C8: authentication failure is uniform — the response produced when
the alias is unknown to the directory is the very same value as the
response produced when the alias is known but the supplied secret is
wrong (and does not match a configured master override), so the two
cases are indistinguishable to the caller. -/
theorem login_uniform_failure
    (students₁ students₂ : List DirEntry) (masterPw : Option String)
    (name₁ pw₁ name₂ pw₂ : String) (st : DirEntry)
    (h₁n : name₁ ≠ "") (h₁p : pw₁ ≠ "")
    (hunknown : findStudent students₁ name₁ = none)
    (h₂n : name₂ ≠ "") (h₂p : pw₂ ≠ "")
    (hfound : findStudent students₂ name₂ = some st)
    (hmaster : ∀ m, masterPw = some m → pw₂ ≠ m)
    (hwrong : pw₂ ≠ st.password) :
    login students₁ masterPw name₁ pw₁ = .unauthorized "Invalid credentials" ∧
    login students₂ masterPw name₂ pw₂ = .unauthorized "Invalid credentials" ∧
    login students₁ masterPw name₁ pw₁ = login students₂ masterPw name₂ pw₂ := by
  have e₁ : login students₁ masterPw name₁ pw₁ =
      .unauthorized "Invalid credentials" := by
    simp [login, h₁n, h₁p, hunknown]
  have e₂ : login students₂ masterPw name₂ pw₂ =
      .unauthorized "Invalid credentials" := by
    cases masterPw with
    | none => simp [login, h₂n, h₂p, hfound, hwrong]
    | some m =>
      have hm := hmaster m rfl
      simp [login, h₂n, h₂p, hfound, hm, hwrong]
  exact ⟨e₁, e₂, e₁.trans e₂.symm⟩

/-- Witness for C8: a concrete unknown alias and a concrete known
alias with a wrong secret produce the identical failure value. -/
theorem login_uniform_failure_witness :
    login [] (some "master") "Ghost" "whatever" =
      .unauthorized "Invalid credentials" ∧
    login [⟨"Amy", "S001", "goodpw"⟩] (some "master") "Amy" "badpw" =
      .unauthorized "Invalid credentials" ∧
    login [] (some "master") "Ghost" "whatever" =
      login [⟨"Amy", "S001", "goodpw"⟩] (some "master") "Amy" "badpw" :=
  login_uniform_failure [] [⟨"Amy", "S001", "goodpw"⟩] (some "master")
    "Ghost" "whatever" "Amy" "badpw" ⟨"Amy", "S001", "goodpw"⟩
    (by decide) (by decide) (by decide) (by decide) (by decide) (by decide)
    (fun m hm => by cases hm; decide) (by decide)

/-! ### Supporting lemmas for the credential deriver -/

/-- `dropWhile` leaves a list unchanged when it leaves a longer list
with that list as prefix unchanged. -/
theorem dropWhile_eq_self_of_sublead {p : Char → Bool} {l m : List Char}
    (hpre : l <+: m) (hm : List.dropWhile p m = m) :
    List.dropWhile p l = l := by
  rw [List.dropWhile_eq_self_iff] at hm ⊢
  intro hl
  have hlen : 0 < m.length := lt_of_lt_of_le hl hpre.length_le
  have := hpre.getElem (n := 0) hl
  simpa [List.get_eq_getElem, this] using hm hlen

/-- JavaScript `trim` is idempotent. -/
theorem jsTrim_idempotent (s : String) : jsTrim (jsTrim s) = jsTrim s := by
  show String.mk _ = String.mk _
  congr 1
  show List.rdropWhile isJsWhitespace
      (List.dropWhile isJsWhitespace
        (List.rdropWhile isJsWhitespace
          (List.dropWhile isJsWhitespace s.toList))) = _
  rw [dropWhile_eq_self_of_sublead (List.rdropWhile_prefix _ _)
      (List.dropWhile_idempotent _ _),
    List.rdropWhile_idempotent]
  rfl

/-- The SHA-256 digest always has 32 bytes. -/
theorem sha256_length (msg : List Nat) : (Sha256.sha256 msg).length = 32 := by
  simp [Sha256.sha256, Sha256.wordBytesBE]

/-- The HMAC-SHA256 digest always has 32 bytes. -/
theorem hmacSha256_length (key msg : List Nat) :
    (Sha256.hmacSha256 key msg).length = 32 := by
  simp [Sha256.hmacSha256, sha256_length]

/-- Length of the base64url encoding: four characters per three-byte
group, plus two or three for a trailing one- or two-byte group. -/
theorem b64UrlEncode_length (bs : List Nat) :
    (b64UrlEncode bs).length =
      4 * (bs.length / 3) +
        (if bs.length % 3 = 0 then 0 else bs.length % 3 + 1) := by
  induction bs using b64UrlEncode.induct with
  | case1 => simp [b64UrlEncode]
  | case2 b0 => simp [b64UrlEncode]
  | case3 b0 b1 => simp [b64UrlEncode]
  | case4 b0 b1 b2 rest ih =>
    simp only [b64UrlEncode, List.length_cons, ih]
    have h3 : (rest.length + 1 + 1 + 1) = rest.length + 3 := by omega
    rw [h3, Nat.add_div_right _ (by omega), Nat.add_mod_right]
    omega

/-- C9: the credential deriver is a deterministic pure function of the
trimmed identity token and the key material — tokens with equal trims
yield equal secrets, deriving a token equals deriving its trimmed form
— and the result always has the shape `ac-` + 5 characters + `-` +
6 characters, both sliced from the base64url digest. -/
theorem derivePassword_deterministic_shape (key T : String) :
    (∀ T₁ T₂ : String, jsTrim T₁ = jsTrim T₂ →
      Server.derivePassword key T₁ = Server.derivePassword key T₂) ∧
    Server.derivePassword key T = Server.derivePassword key (jsTrim T) ∧
    (∃ p q : String,
      Server.derivePassword key T = "ac-" ++ p ++ "-" ++ q ∧
      p.length = 5 ∧ q.length = 6 ∧
      p = jsSlice (String.mk (b64UrlEncode
        (Sha256.hmacSha256 (utf8Bytes key) (utf8Bytes (jsTrim T))))) 0 5 ∧
      q = jsSlice (String.mk (b64UrlEncode
        (Sha256.hmacSha256 (utf8Bytes key) (utf8Bytes (jsTrim T))))) 5 11) := by
  have hdet : ∀ T₁ T₂ : String, jsTrim T₁ = jsTrim T₂ →
      Server.derivePassword key T₁ = Server.derivePassword key T₂ := by
    intro T₁ T₂ h
    unfold Server.derivePassword
    rw [h]
  have hlen : (b64UrlEncode (Sha256.hmacSha256 (utf8Bytes key)
      (utf8Bytes (jsTrim T)))).length = 43 := by
    rw [b64UrlEncode_length, hmacSha256_length]
    norm_num
  refine ⟨hdet, hdet T (jsTrim T) (jsTrim_idempotent T).symm,
    jsSlice (String.mk (b64UrlEncode (Sha256.hmacSha256 (utf8Bytes key)
      (utf8Bytes (jsTrim T))))) 0 5,
    jsSlice (String.mk (b64UrlEncode (Sha256.hmacSha256 (utf8Bytes key)
      (utf8Bytes (jsTrim T))))) 5 11,
    rfl, ?_, ?_, rfl, rfl⟩
  · simp [jsSlice, String.length, hlen]
  · simp [jsSlice, String.length, hlen]

/-- Witness for C9: a padded and an unpadded rendering of the same
token derive the same secret. -/
theorem derivePassword_deterministic_shape_witness :
    jsTrim " S022 " = jsTrim "S022" ∧
    Server.derivePassword "portal-secret" " S022 " =
      Server.derivePassword "portal-secret" "S022" :=
  ⟨by decide, (derivePassword_deterministic_shape "portal-secret" " S022 ").1
    " S022 " "S022" (by decide)⟩

/-! ### Supporting lemmas for the class summary -/

/-- The per-block fold never changes the accumulator's alias. -/
theorem foldBlock_preferredName (c : Counts) (st : Option String) :
    (foldBlock c st).preferredName = c.preferredName := by
  cases st with
  | none => rfl
  | some s =>
    simp only [foldBlock]
    split_ifs <;> rfl

/-- Folding a record's four blocks never changes the alias. -/
theorem foldRecordBlocks_preferredName (c : Counts) (r : ClassRow) :
    (foldRecordBlocks c r).preferredName = c.preferredName := by
  simp [foldRecordBlocks, foldBlock_preferredName]

/-- An alias present after processing one record was already present
or is that record's resolved alias. -/
theorem mem_processRecord_name {m : List Counts} {r : ClassRow} {c : Counts}
    (hc : c ∈ processRecord m r) :
    c.preferredName ∈ m.map (fun x => x.preferredName) ∨
      resolveName r.preferredNameText = some c.preferredName := by
  unfold processRecord at hc
  cases hres : resolveName r.preferredNameText with
  | none =>
    rw [hres] at hc
    exact .inl (List.mem_map_of_mem _ hc)
  | some n =>
    rw [hres] at hc
    rcases List.mem_map.mp hc with ⟨c₀, hc₀, heq⟩
    cases hn : (c₀.preferredName == n) with
    | true =>
      right
      rw [hn] at heq
      rw [if_pos rfl] at heq
      rw [← heq, foldRecordBlocks_preferredName, eq_of_beq hn]
    | false =>
      rw [hn] at heq
      rw [if_neg (by simp)] at heq
      subst heq
      by_cases hany : m.any (fun c => c.preferredName == n) = true
      · rw [if_pos hany] at hc₀
        exact .inl (List.mem_map_of_mem _ hc₀)
      · rw [if_neg hany] at hc₀
        rcases List.mem_append.mp hc₀ with h | h
        · exact .inl (List.mem_map_of_mem _ h)
        · rcases List.mem_singleton.mp h with rfl
          simp at hn

/-- Any alias in the aggregated student map resolves from some
processed row. -/
theorem mem_buildStudentMap_name :
    ∀ (rows : List ClassRow) (acc : List Counts) (c : Counts),
      c ∈ rows.foldl processRecord acc →
      c.preferredName ∈ acc.map (fun x => x.preferredName) ∨
        ∃ r ∈ rows, resolveName r.preferredNameText = some c.preferredName := by
  intro rows
  induction rows with
  | nil =>
    intro acc c hc
    exact .inl (List.mem_map_of_mem _ hc)
  | cons r t ih =>
    intro acc c hc
    rw [List.foldl_cons] at hc
    rcases ih (processRecord acc r) c hc with h | ⟨r', hr', hres⟩
    · rcases List.mem_map.mp h with ⟨c', hc', hname⟩
      rcases mem_processRecord_name hc' with h' | h'
      · left; rwa [hname] at h'
      · right
        refine ⟨r, List.mem_cons_self r t, ?_⟩
        rwa [hname] at h'
    · exact .inr ⟨r', List.mem_cons_of_mem r hr', hres⟩

/-- The percent join never changes the alias or the counts. -/
theorem joinPercent_components (lookup : String → PercentLookup)
    (className : String) (c : Counts) :
    (joinPercent lookup className c).preferredName = c.preferredName ∧
    (joinPercent lookup className c).absences = c.absences ∧
    (joinPercent lookup className c).tardies = c.tardies ∧
    (joinPercent lookup className c).totalBlocks = c.totalBlocks := by
  unfold joinPercent
  cases lookup c.preferredName with
  | ok recs => cases recs <;> simp
  | httpError => simp
  | thrown => simp

/-- A failed per-student lookup joins the unknown percent. -/
theorem joinPercent_failed {lookup : String → PercentLookup}
    {className : String} {c : Counts}
    (h : lookupFailed (lookup c.preferredName) = true) :
    joinPercent lookup className c =
      ⟨c.preferredName, c.absences, c.tardies, c.totalBlocks, none⟩ := by
  unfold lookupFailed at h
  unfold joinPercent
  cases hl : lookup c.preferredName with
  | ok recs =>
    rw [hl] at h
    rcases List.isEmpty_iff.mp h with rfl
    rfl
  | httpError => rfl
  | thrown => rfl

/-- The percent join depends on the lookup only at the student's own
alias. -/
theorem joinPercent_congr {lookup lookup' : String → PercentLookup}
    {className : String} {c : Counts}
    (h : lookup c.preferredName = lookup' c.preferredName) :
    joinPercent lookup className c = joinPercent lookup' className c := by
  unfold joinPercent
  rw [h]

/-- Erasing the percent of a joined summary yields the summary a
failed lookup would have produced. -/
theorem joinPercent_erase (lookup : String → PercentLookup)
    (className : String) (c : Counts) :
    { joinPercent lookup className c with percentMissed := none } =
      ⟨c.preferredName, c.absences, c.tardies, c.totalBlocks, none⟩ := by
  unfold joinPercent
  cases lookup c.preferredName with
  | ok recs => cases recs <;> rfl
  | httpError => rfl
  | thrown => rfl

/-- Unfolding membership in the class summary down to the student
map. -/
theorem mem_summarizeClass_iff (courseRecordId : String) (startDate : Nat)
    (className : String) (rows : List ClassRow)
    (lookup : String → PercentLookup) (s : StudentSummary) :
    s ∈ summarizeClass courseRecordId startDate className rows lookup ↔
      ∃ c ∈ (buildStudentMap
          (rows.filter (qualifies courseRecordId startDate))).filter
          (fun c => c.preferredName ≠ ""),
        joinPercent lookup className c = s := by
  simp only [summarizeClass, List.mem_mergeSort, List.mem_map]

/-- C4: the class summary counts only rows whose course links contain
the target course and whose date is on or after the course start — it
equals the summary of the pre-filtered rows — and a student appearing
in zero qualifying rows is absent from the output entirely. -/
theorem summarizeClass_excludes_nonqualifying (courseRecordId : String)
    (startDate : Nat) (className : String) (rows : List ClassRow)
    (lookup : String → PercentLookup) (a : String)
    (h : ∀ r ∈ rows, qualifies courseRecordId startDate r = true →
      resolveName r.preferredNameText ≠ some a) :
    (∀ s ∈ summarizeClass courseRecordId startDate className rows lookup,
      s.preferredName ≠ a) ∧
    summarizeClass courseRecordId startDate className rows lookup =
      summarizeClass courseRecordId startDate className
        (rows.filter (qualifies courseRecordId startDate)) lookup := by
  constructor
  · intro s hs hsa
    rcases (mem_summarizeClass_iff _ _ _ _ _ s).mp hs with ⟨c, hc, hjoin⟩
    have hcmem : c ∈ buildStudentMap
        (rows.filter (qualifies courseRecordId startDate)) :=
      (List.mem_filter.mp hc).1
    rcases mem_buildStudentMap_name
        (rows.filter (qualifies courseRecordId startDate)) [] c hcmem with
      hfalse | ⟨r, hr, hres⟩
    · simp at hfalse
    · rcases List.mem_filter.mp hr with ⟨hrrows, hq⟩
      have hname : c.preferredName = a := by
        rw [← (joinPercent_components lookup className c).1, hjoin, hsa]
      rw [hname] at hres
      exact h r hrrows hq hres
  · simp only [summarizeClass, List.filter_filter]
    simp [Bool.and_self]

/-- Witness for C4: a qualifying row for one student and an
out-of-window row for another; the excluded student's alias can never
appear, and the summary equals that of the filtered rows. -/
theorem summarizeClass_excludes_nonqualifying_witness :
    (∀ r ∈ [(⟨.str "Amy", some 12, ["c1"], some "Present", none, none, none⟩ :
        ClassRow),
      ⟨.str "Zoe", some 5, ["c1"], some "Absent", none, none, none⟩],
      qualifies "c1" 10 r = true →
        resolveName r.preferredNameText ≠ some "Zoe") ∧
    summarizeClass "c1" 10 "X"
        [⟨.str "Amy", some 12, ["c1"], some "Present", none, none, none⟩,
         ⟨.str "Zoe", some 5, ["c1"], some "Absent", none, none, none⟩]
        (fun _ => PercentLookup.httpError) =
      summarizeClass "c1" 10 "X"
        ([⟨.str "Amy", some 12, ["c1"], some "Present", none, none, none⟩,
          ⟨.str "Zoe", some 5, ["c1"], some "Absent", none, none, none⟩].filter
          (qualifies "c1" 10))
        (fun _ => PercentLookup.httpError) :=
  ⟨by decide,
    (summarizeClass_excludes_nonqualifying "c1" 10 "X"
      [⟨.str "Amy", some 12, ["c1"], some "Present", none, none, none⟩,
       ⟨.str "Zoe", some 5, ["c1"], some "Absent", none, none, none⟩]
      (fun _ => PercentLookup.httpError) "Zoe" (by decide)).2⟩

/-- C6: when the percent lookup fails for one student, the class
summary still succeeds — that student is still present, with the
unknown percent, and every student with a different alias has exactly
the summary a working lookup would have produced. -/
theorem summarizeClass_percent_degradation (courseRecordId : String)
    (startDate : Nat) (className : String) (rows : List ClassRow)
    (lookup lookup' : String → PercentLookup) (a : String)
    (hfail : lookupFailed (lookup a) = true)
    (hagree : ∀ x, x ≠ a → lookup x = lookup' x) :
    (∀ s ∈ summarizeClass courseRecordId startDate className rows lookup,
      s.preferredName = a → s.percentMissed = none) ∧
    (∀ s : StudentSummary, s.preferredName ≠ a →
      (s ∈ summarizeClass courseRecordId startDate className rows lookup ↔
        s ∈ summarizeClass courseRecordId startDate className rows lookup')) ∧
    (∀ s ∈ summarizeClass courseRecordId startDate className rows lookup',
      s.preferredName = a →
      { s with percentMissed := none } ∈
        summarizeClass courseRecordId startDate className rows lookup) := by
  refine ⟨?_, ?_, ?_⟩
  · intro s hs hsa
    rcases (mem_summarizeClass_iff _ _ _ _ _ s).mp hs with ⟨c, hc, hjoin⟩
    have hcname : c.preferredName = a := by
      rw [← (joinPercent_components lookup className c).1, hjoin, hsa]
    have hfail' : lookupFailed (lookup c.preferredName) = true := by
      rw [hcname]; exact hfail
    rw [← hjoin, joinPercent_failed hfail']
  · intro s hsne
    constructor
    · intro hs
      rcases (mem_summarizeClass_iff _ _ _ _ _ s).mp hs with ⟨c, hc, hjoin⟩
      have hcname : c.preferredName ≠ a := by
        rw [← (joinPercent_components lookup className c).1, hjoin]
        exact hsne
      refine (mem_summarizeClass_iff _ _ _ _ _ s).mpr ⟨c, hc, ?_⟩
      rw [← joinPercent_congr (hagree c.preferredName hcname)]
      exact hjoin
    · intro hs
      rcases (mem_summarizeClass_iff _ _ _ _ _ s).mp hs with ⟨c, hc, hjoin⟩
      have hcname : c.preferredName ≠ a := by
        rw [← (joinPercent_components lookup' className c).1, hjoin]
        exact hsne
      refine (mem_summarizeClass_iff _ _ _ _ _ s).mpr ⟨c, hc, ?_⟩
      rw [joinPercent_congr (hagree c.preferredName hcname)]
      exact hjoin
  · intro s hs hsa
    rcases (mem_summarizeClass_iff _ _ _ _ _ s).mp hs with ⟨c, hc, hjoin⟩
    have hcname : c.preferredName = a := by
      rw [← (joinPercent_components lookup' className c).1, hjoin, hsa]
    refine (mem_summarizeClass_iff _ _ _ _ _ _).mpr ⟨c, hc, ?_⟩
    rw [joinPercent_failed (show lookupFailed (lookup c.preferredName) = true
      by rw [hcname]; exact hfail), ← hjoin, joinPercent_erase]

/-- Witness for C6: the lookup fails for `"Amy"` only; the summary
still contains Amy's row with the unknown percent. -/
theorem summarizeClass_percent_degradation_witness :
    lookupFailed ((fun x => if x = "Amy" then PercentLookup.httpError
      else .ok [⟨some 3, some 4, none⟩]) "Amy") = true ∧
    (⟨"Amy", 1, 0, 1, none⟩ : StudentSummary).percentMissed = none :=
  ⟨by decide,
    (summarizeClass_percent_degradation "c1" 10 "Frontend 2026"
      [⟨.str "Amy", some 12, ["c1"], some "Absent", none, none, none⟩,
       ⟨.str "Bob", some 12, ["c1"], some "Tardy", some "Present", none, none⟩]
      (fun x => if x = "Amy" then PercentLookup.httpError
        else .ok [⟨some 3, some 4, none⟩])
      (fun _ => PercentLookup.ok [⟨some 3, some 4, none⟩]) "Amy"
      (by decide) (fun x hx => by simp [hx])).1
    ⟨"Amy", 1, 0, 1, none⟩
    ((mem_summarizeClass_iff _ _ _ _ _ _).mpr
      ⟨⟨"Amy", 1, 0, 1⟩, by decide, rfl⟩) rfl⟩
